import Mathlib

/-!
Verification of the spreadsheet-as-database adapter in `src/lib/sheets.ts`
of the finance-tracker application.  Spreadsheet cells are modelled as a sum
of text and (exact rational) numeric values; the JavaScript coercion helpers
(`parseFloat`, `parseInt`, `||` defaulting, `String(n).padStart`) are embedded
as explicit Lean functions, and each accessor / orchestrator of the source is
translated into a pure function over explicit state.
-/

namespace FinTrack

/-- A spreadsheet cell: either text or a numeric value.  A missing cell
(JS `undefined` on a short row) is modelled as the empty string, which has
the same observable behaviour under the coercions the source applies
(`x || ""` gives `""`, `parseFloat(x)` gives NaN, `x === s` is false). -/
inductive Cell where
  | str (s : String)
  | num (q : ℚ)
deriving DecidableEq

/-- `row[i]` with JS out-of-bounds access: a missing cell behaves as `""`. -/
def getCell (row : List Cell) (i : Nat) : Cell :=
  row.getD i (Cell.str "")

/-- Write cell `i` of a row, padding with empty cells if the row is short
(models the sheet write of a single cell in a possibly short row). -/
def setCell (row : List Cell) (i : Nat) (v : Cell) : List Cell :=
  (row ++ List.replicate (i + 1 - row.length) (Cell.str "")).set i v

/-- JS `x || ""` applied to a cell read into a string field:
text is kept (empty text is falsy and yields `""`, which coincides),
the number `0` is falsy and yields `""`, other numbers stringify. -/
def cellText (c : Cell) : String :=
  match c with
  | .str s => s
  | .num q => if q = 0 then "" else toString q

/-- JS strict equality `row[i] === s` between a cell and a string literal:
true only for a text cell with equal contents. -/
def cellEqStr (c : Cell) (s : String) : Bool :=
  match c with
  | .str t => t = s
  | .num _ => false

/-- Numeric value of a decimal digit character. -/
def digVal (c : Char) : Nat := c.toNat - 48

/-- Fold a list of decimal digit characters into the natural number they
denote (most significant first). -/
def fromDigits (l : List Char) : Nat :=
  l.foldl (fun a c => 10 * a + digVal c) 0

/-- JS `parseInt(s, 10)`: an optional leading minus sign followed by a
maximal run of decimal digits; NaN (`none`) if no digit is found.
(The source only ever parses plain decimal counter values.) -/
def jsParseIntStr (s : String) : Option Int :=
  match s.data with
  | '-' :: rest =>
      let ds := rest.takeWhile Char.isDigit
      if ds.isEmpty then none else some (-(fromDigits ds : Int))
  | l =>
      let ds := l.takeWhile Char.isDigit
      if ds.isEmpty then none else some (fromDigits ds : Int)

/-- JS truncation toward zero, as performed by `parseInt` on the decimal
rendering of a number. -/
def jsTrunc (q : ℚ) : Int :=
  if 0 ≤ q then ⌊q⌋ else -⌊-q⌋

/-- JS `parseInt(x, 10)` on a cell; `none` models NaN. -/
def jsParseInt (c : Cell) : Option Int :=
  match c with
  | .str s => jsParseIntStr s
  | .num q => some (jsTrunc q)

/-- JS `parseFloat(s)`: optional sign, integer part, optional fraction;
NaN (`none`) when no digit is present.  (Exponent forms and special values
never arise in this application's cells.) -/
def jsParseFloatStr (s : String) : Option ℚ :=
  let core : List Char → Option ℚ := fun l =>
    let ip := l.takeWhile Char.isDigit
    let rest := l.dropWhile Char.isDigit
    match rest with
    | '.' :: fr =>
        let fp := fr.takeWhile Char.isDigit
        if ip.isEmpty ∧ fp.isEmpty then none
        else some ((fromDigits ip : ℚ) + (fromDigits fp : ℚ) / (10 ^ fp.length : ℚ))
    | _ => if ip.isEmpty then none else some (fromDigits ip : ℚ)
  match s.data with
  | '-' :: rest => (core rest).map (fun q => -q)
  | l => core l

/-- JS `parseFloat(x)` on a cell; `none` models NaN. -/
def jsParseFloat (c : Cell) : Option ℚ :=
  match c with
  | .str s => jsParseFloatStr s
  | .num q => some q

/-- JS `parseFloat(x) || 0`: NaN is falsy and defaults to `0`
(and `0 || 0 = 0`, so `getD` is an exact model). -/
def numOrZero (o : Option ℚ) : ℚ := o.getD 0

/-- The decimal digit characters of `n`, most significant first: the
unfolding of core's fuelled `Nat.toDigitsCore` at base 10. -/
def decDigits (n : Nat) : List Char :=
  if _h : n / 10 = 0 then [Nat.digitChar (n % 10)]
  else decDigits (n / 10) ++ [Nat.digitChar (n % 10)]
decreasing_by exact Nat.div_lt_self (by omega) (by omega)

/-- JS `s.padStart(k, "0")`: left-pad with zeros up to length `k`. -/
def padStart0 (k : Nat) (s : String) : String :=
  ⟨List.replicate (k - s.length) '0' ++ s.data⟩

/-- JS `String(i)` for an integer value. -/
def jsNumRepr (i : Int) : String :=
  if i < 0 then "-" ++ Nat.repr (-i).toNat else Nat.repr i.toNat

/-- A JS `Date` as far as this code observes it: the `date-fns`
`format(d, "MM/dd/yyyy")` output is fully determined by these parts. -/
structure JsDate where
  month : Nat
  day : Nat
  year : Nat
deriving DecidableEq

/-- `date-fns` `format(d, "MM/dd/yyyy")`: two-digit month and day,
four-digit year. -/
def formatMMddyyyy (d : JsDate) : String :=
  padStart0 2 (Nat.repr d.month) ++ "/" ++ padStart0 2 (Nat.repr d.day) ++
    "/" ++ padStart0 4 (Nat.repr d.year)

/-- Decoded `Company` record (type `Company` in the source). -/
structure Company where
  rowIndex : Nat
  id : String
  name : String
  invoicePrefix : String
  logoUrl : String
deriving DecidableEq

/-- Decoded `Category` record.  The source narrows `row[2]` with
`row[2] === "Income" ? "Income" : "Expense"`. -/
structure Category where
  id : String
  name : String
  type : String
deriving DecidableEq

/-- Decoded `Transaction` record. -/
structure Transaction where
  rowIndex : Nat
  date : String
  company : String
  category : String
  description : String
  income : ℚ
  expense : ℚ
  receiptLink : String
  invoiceId : String
deriving DecidableEq

/-- Input shape `TransactionData` for adding/updating a transaction. -/
structure TransactionData where
  date : JsDate
  company : String
  category : String
  description : String
  amount : ℚ
  type : String            -- "Income" | "Expense"
  receiptLink : Option String
  invoiceId : Option String
deriving DecidableEq

/-- Decoded `Bill` record. -/
structure Bill where
  rowIndex : Nat
  billId : String
  dueDate : String
  payee : String
  amount : ℚ
  status : String
deriving DecidableEq

/-- Input shape `BillData`. -/
structure BillData where
  dueDate : JsDate
  payee : String
  amount : ℚ
deriving DecidableEq

/-- Decoded `Invoice` record.  The source casts `row[8]` with
`(row[8] as InvoiceStatus) || "Draft"`, an unchecked cast, so the decoded
status is the raw text with `""` defaulted to `"Draft"`. -/
structure Invoice where
  rowIndex : Nat
  invoiceId : String
  transactionId : String
  companyId : String
  customerName : String
  customerAddress : String
  issueDate : String
  dueDate : String
  totalAmount : ℚ
  status : String
deriving DecidableEq

/-- Input shape `InvoiceData` (without the generated `transactionId` and
the `totalAmount` copied from the transaction). -/
structure InvoiceData where
  companyId : String
  customerName : String
  customerAddress : String
  issueDate : JsDate
  dueDate : JsDate
deriving DecidableEq

/-! ### Range codec: one decoder / encoder per table, from the source -/

/-- `getCompanies` row mapping (`rowIndex: index + 2, id: row[0],
name: row[1], invoicePrefix: row[2] || "", logoUrl: row[3] || ""`). -/
def decodeCompanyRow (index : Nat) (row : List Cell) : Company :=
  { rowIndex := index + 2
    id := cellText (getCell row 0)
    name := cellText (getCell row 1)
    invoicePrefix := cellText (getCell row 2)
    logoUrl := cellText (getCell row 3) }

/-- The row `addCompany` appends to `Companies!A:D` for a generated
`companyId` (the slug+timestamp id generation is external input here). -/
def encodeCompanyRow (companyId name invPrefix : String)
    (logoUrl : Option String) : List Cell :=
  [.str companyId, .str name, .str invPrefix, .str (logoUrl.getD "")]

/-- `getCompanies` empty-row filter: `c.id && c.name`. -/
def keepCompany (c : Company) : Bool := c.id ≠ "" ∧ c.name ≠ ""

/-- `getCompanies` over the grid read from `Companies!A2:D`
(success path of the fetch; the failure path returns `[]`). -/
def getCompanies (grid : List (List Cell)) : List Company :=
  ((grid.enum.map fun p => decodeCompanyRow p.1 p.2).filter keepCompany)

/-- `getCategories` row mapping. -/
def decodeCategoryRow (row : List Cell) : Category :=
  { id := cellText (getCell row 0)
    name := cellText (getCell row 1)
    type := if cellEqStr (getCell row 2) "Income" then "Income" else "Expense" }

/-- The row `addCategory` appends (the generated id is external input). -/
def encodeCategoryRow (categoryId categoryName categoryType : String) :
    List Cell :=
  [.str categoryId, .str categoryName, .str categoryType]

/-- `getTransactions` row mapping. -/
def decodeTransactionRow (index : Nat) (row : List Cell) : Transaction :=
  { rowIndex := index + 2
    date := cellText (getCell row 0)
    company := cellText (getCell row 1)
    category := cellText (getCell row 2)
    description := cellText (getCell row 3)
    income := numOrZero (jsParseFloat (getCell row 4))
    expense := numOrZero (jsParseFloat (getCell row 5))
    receiptLink := cellText (getCell row 6)
    invoiceId := cellText (getCell row 7) }

/-- The row `addTransaction` (and `updateTransaction`) writes. -/
def encodeTransactionRow (t : TransactionData) : List Cell :=
  [.str (formatMMddyyyy t.date),
   .str t.company,
   .str t.category,
   .str t.description,
   if t.type = "Income" then .num t.amount else .str "",
   if t.type = "Expense" then .num t.amount else .str "",
   .str (t.receiptLink.getD ""),
   .str (t.invoiceId.getD "")]

/-- `getTransactions` empty-row filter:
`t.date || t.company || t.category || t.income || t.expense`. -/
def keepTransaction (t : Transaction) : Bool :=
  t.date ≠ "" ∨ t.company ≠ "" ∨ t.category ≠ "" ∨ t.income ≠ 0 ∨ t.expense ≠ 0

/-- The decoded, empty-row-filtered transaction list, in sheet order
(the `.map(...).filter(...)` part of `getTransactions`). -/
def transactionsFiltered (grid : List (List Cell)) : List Transaction :=
  (grid.enum.map fun p => decodeTransactionRow p.1 p.2).filter keepTransaction

/-- `getTransactions` over the grid read from `Transactions!A2:H`:
decode, filter, then `transactions.reverse().slice(0, 100)`. -/
def getTransactions (grid : List (List Cell)) : List Transaction :=
  (transactionsFiltered grid).reverse.take 100

/-- `getBills` row mapping. -/
def decodeBillRow (index : Nat) (row : List Cell) : Bill :=
  { rowIndex := index + 2
    billId := cellText (getCell row 0)
    dueDate := cellText (getCell row 1)
    payee := cellText (getCell row 2)
    amount := numOrZero (jsParseFloat (getCell row 3))
    status := if cellEqStr (getCell row 4) "Paid" then "Paid" else "Pending" }

/-- The row `addBill` appends (billId `bill-` timestamp is external
input; status always starts `"Pending"`). -/
def encodeBillRow (billId : String) (b : BillData) : List Cell :=
  [.str billId, .str (formatMMddyyyy b.dueDate), .str b.payee,
   .num b.amount, .str "Pending"]

/-- `getInvoices` row mapping. -/
def decodeInvoiceRow (index : Nat) (row : List Cell) : Invoice :=
  { rowIndex := index + 2
    invoiceId := cellText (getCell row 0)
    transactionId := cellText (getCell row 1)
    companyId := cellText (getCell row 2)
    customerName := cellText (getCell row 3)
    customerAddress := cellText (getCell row 4)
    issueDate := cellText (getCell row 5)
    dueDate := cellText (getCell row 6)
    totalAmount := numOrZero (jsParseFloat (getCell row 7))
    status :=
      let s := cellText (getCell row 8)
      if s = "" then "Draft" else s }

/-- The invoice row `createTransactionAndInvoice` appends to
`Invoices!A:I` (amount copied from the transaction, status `"Draft"`). -/
def encodeInvoiceRow (formattedInvoiceId transactionId : String)
    (inv : InvoiceData) (amount : ℚ) : List Cell :=
  [.str formattedInvoiceId, .str transactionId, .str inv.companyId,
   .str inv.customerName, .str inv.customerAddress,
   .str (formatMMddyyyy inv.issueDate), .str (formatMMddyyyy inv.dueDate),
   .num amount, .str "Draft"]

/-- The counter row `addCompany` appends to `InvoiceCounter!A:B`. -/
def encodeCounterRow (companyId : String) : List Cell :=
  [.str companyId, .str "1"]

/-! ### Sheet identity resolver -/

/-- One entry of the spreadsheet metadata `sheets(properties(sheetId,title))`. -/
structure SheetProps where
  sheetId : Nat
  title : String
deriving DecidableEq

/-- `getSheetIdByTitle`: one metadata read (`none` models a failed fetch,
caught and turned into `null`), then
`spreadsheet.sheets.find(s => s.properties.title === title)` and
`return sheet?.properties?.sheetId || null`.  Note the JS `||`: a found
sheet whose numeric id is `0` is falsy and also yields `null`. -/
def getSheetIdByTitle (meta : Option (List SheetProps)) (title : String) :
    Option Nat :=
  match meta with
  | none => none
  | some sheets =>
    match sheets.find? (fun s => s.title = title) with
    | none => none
    | some s => if s.sheetId = 0 then none else some s.sheetId

/-! ### deleteCompany -/

/-- One `deleteDimension` request of a `batchUpdate` call
(`dimension: "ROWS"`, 0-based half-open `[startIndex, endIndex)`). -/
structure DeleteReq where
  sheetId : Nat
  startIndex : Nat
  endIndex : Nat
deriving DecidableEq

/-- The full contents of the two tabs `deleteCompany` touches; row 0 of
each list is the protected header row (sheet row 1). -/
structure CompanyTabs where
  companiesTab : List (List Cell)
  counterTab : List (List Cell)
deriving DecidableEq

/-- `deleteCompany`: resolve both numeric sheet ids (abort with `none` if
either resolution fails), scan `InvoiceCounter!A2:A` for the company
(`row[0] === companyId`), and build the single batched request list:
always the Companies row delete, plus the counter row delete when the
scan found a match (`counterSheetRow = counterRowIndex + 2`). -/
def deleteCompany (meta : Option (List SheetProps)) (st : CompanyTabs)
    (companyId : String) (companyRowIndex : Nat) : Option (List DeleteReq) :=
  match getSheetIdByTitle meta "Companies",
        getSheetIdByTitle meta "InvoiceCounter" with
  | some companiesSheetId, some counterSheetId =>
    let counterValues := st.counterTab.drop 1
    let base : List DeleteReq :=
      [⟨companiesSheetId, companyRowIndex - 1, companyRowIndex⟩]
    match counterValues.findIdx? (fun row => cellEqStr (getCell row 0) companyId) with
    | some counterRowIndex =>
        some (base ++ [⟨counterSheetId, (counterRowIndex + 2) - 1, counterRowIndex + 2⟩])
    | none => some base
  | _, _ => none

/-- Remove the single row `[start, start+1)` (0-based) from a tab,
shifting all subsequent rows up: the effect of one `deleteDimension`. -/
def deleteRow (tab : List (List Cell)) (start : Nat) : List (List Cell) :=
  tab.take start ++ tab.drop (start + 1)

/-- Apply one delete request to the two-tab state, dispatching on the
numeric sheet id. -/
def applyReq (companiesSheetId counterSheetId : Nat) (st : CompanyTabs)
    (r : DeleteReq) : CompanyTabs :=
  if r.sheetId = companiesSheetId then
    { st with companiesTab := deleteRow st.companiesTab r.startIndex }
  else if r.sheetId = counterSheetId then
    { st with counterTab := deleteRow st.counterTab r.startIndex }
  else st

/-- Apply a whole batched request list in order (the backing service
executes the batch as one atomic call). -/
def applyBatch (companiesSheetId counterSheetId : Nat) (st : CompanyTabs)
    (reqs : List DeleteReq) : CompanyTabs :=
  reqs.foldl (applyReq companiesSheetId counterSheetId) st

/-! ### Invoice counter sequencer and orchestrator -/

/-- `getNextInvoiceNumber`: read `InvoiceCounter!A2:B` (`readOk = false`
models the failed fetch), `values.findIndex(row => row[0] === companyId)`,
fail if absent, `parseInt(values[rowIndex][1], 10)`, fail on NaN; the
returned `rowIndex` is the sheet row (`rowIndex + 2`). -/
def getNextInvoiceNumber (readOk : Bool) (counterTab : List (List Cell))
    (companyId : String) : Except String (Nat × Int) :=
  if !readOk then .error "Could not read InvoiceCounter sheet."
  else
    let values := counterTab.drop 1
    match values.findIdx? (fun row => cellEqStr (getCell row 0) companyId) with
    | none => .error "Company not found in InvoiceCounter sheet."
    | some rowIndex =>
      match jsParseInt (getCell (values.getD rowIndex []) 1) with
      | none => .error "Invalid invoice number in counter sheet."
      | some nextNumber => .ok (rowIndex + 2, nextNumber)

/-- State of the three tabs the orchestrator writes. -/
structure OrchState where
  transactionsTab : List (List Cell)
  invoicesTab : List (List Cell)
  counterTab : List (List Cell)
deriving DecidableEq

/-- Success/failure of each remote call `createTransactionAndInvoice`
issues, injected so that every failure interleaving is expressible. -/
structure Outcomes where
  counterReadOk : Bool
  txnAppendOk : Bool
  invoiceAppendOk : Bool
  counterWriteOk : Bool
deriving DecidableEq

/-- Result of one `createTransactionAndInvoice` call: the returned
boolean, the `toast.error` message of the failure path (`none` on
success), the formatted invoice id once generated, and the resulting
tab state. -/
structure OrchResult where
  success : Bool
  errorMsg : Option String
  invoiceId : Option String
  state : OrchState
deriving DecidableEq

/-- `incrementInvoiceNumber` writes `InvoiceCounter!B{row}` (sheet row
`counterRowIndex`, so 0-based tab index `counterRowIndex - 1`, column
index 1) with the JS number `newNumber`. -/
def writeCounterCell (tab : List (List Cell)) (counterRowIndex : Nat)
    (newNumber : Int) : List (List Cell) :=
  tab.set (counterRowIndex - 1)
    (setCell (tab.getD (counterRowIndex - 1) []) 1 (.num (newNumber : ℚ)))

/-- `createTransactionAndInvoice`, step for step from the source:
1. `getNextInvoiceNumber`; on `null` return `false` (the sequencer's own
   error toast is the reported message).
2. `formattedInvoiceId = invoicePrefix + String(nextNumber).padStart(3, "0")`;
   `transactionId = txn-` timestamp (`transactionId` is external input here).
3. `addTransaction` with the invoice id injected; on failure throw
   `"Failed to create the transaction."` (nothing durable changed).
4. append the invoice row; on failure throw
   `"Transaction created, but failed to create invoice record."`
   (the transaction row stays, no compensating delete).
5. `incrementInvoiceNumber` with `nextNumber + 1`; on failure throw
   `"Transaction and invoice created, but failed to update invoice counter."`. -/
def createTransactionAndInvoice (oc : Outcomes) (st : OrchState)
    (transactionData : TransactionData) (invoiceData : InvoiceData)
    (company : Company) (transactionId : String) : OrchResult :=
  match getNextInvoiceNumber oc.counterReadOk st.counterTab company.id with
  | .error e => ⟨false, some e, none, st⟩
  | .ok (counterRowIndex, nextNumber) =>
    let formattedInvoiceId :=
      company.invoicePrefix ++ padStart0 3 (jsNumRepr nextNumber)
    let fullTransactionData :=
      { transactionData with invoiceId := some formattedInvoiceId }
    if !oc.txnAppendOk then
      ⟨false, some "Failed to create the transaction.",
        some formattedInvoiceId, st⟩
    else
      let st1 := { st with transactionsTab :=
        st.transactionsTab ++ [encodeTransactionRow fullTransactionData] }
      if !oc.invoiceAppendOk then
        ⟨false, some "Transaction created, but failed to create invoice record.",
          some formattedInvoiceId, st1⟩
      else
        let st2 := { st1 with invoicesTab := st1.invoicesTab ++
          [encodeInvoiceRow formattedInvoiceId transactionId invoiceData
            transactionData.amount] }
        if !oc.counterWriteOk then
          ⟨false,
            some "Transaction and invoice created, but failed to update invoice counter.",
            some formattedInvoiceId, st2⟩
        else
          let newCounterTab :=
            writeCounterCell st2.counterTab counterRowIndex (nextNumber + 1)
          let st3 := { st2 with counterTab := newCounterTab }
          ⟨true, none, some formattedInvoiceId, st3⟩

/-- All remote calls succeed. -/
def allOk : Outcomes := ⟨true, true, true, true⟩

/-- `n` sequential, non-concurrent, fully successful
`createTransactionAndInvoice` calls against one company: the list of
generated invoice ids (in call order) and the final state. -/
def runInvoiceCalls (transactionData : TransactionData)
    (invoiceData : InvoiceData) (company : Company) (transactionId : String) :
    Nat → OrchState → List (Option String) × OrchState
  | 0, st => ([], st)
  | n + 1, st =>
    let r := createTransactionAndInvoice allOk st transactionData invoiceData
      company transactionId
    let rest := runInvoiceCalls transactionData invoiceData company
      transactionId n r.state
    (r.invoiceId :: rest.1, rest.2)

/-- The stored counter value for the row at data offset `i` of the
`InvoiceCounter` tab (what the next `getNextInvoiceNumber` would parse). -/
def counterValueAt (counterTab : List (List Cell)) (i : Nat) : Option Int :=
  jsParseInt (getCell ((counterTab.drop 1).getD i []) 1)

/-- Abbreviation for the formatted invoice id of step 2 of the
orchestrator: `invoicePrefix + String(nextNumber).padStart(3, "0")`. -/
def mkInvoiceId (company : Company) (nextNumber : Int) : String :=
  company.invoicePrefix ++ padStart0 3 (jsNumRepr nextNumber)

/-- Abbreviation: a `TransactionData` with the generated invoice id
injected (`{ ...transactionData, invoiceId: formattedInvoiceId }`). -/
def withInvoiceId (td : TransactionData) (fid : String) : TransactionData :=
  { td with invoiceId := some fid }

/-! ### Decimal representation: correspondence with core and injectivity -/

theorem toDigitsCore_eq_decDigits (fuel : Nat) :
    ∀ (n : Nat) (acc : List Char), n < fuel →
      Nat.toDigitsCore 10 fuel n acc = decDigits n ++ acc := by
  induction fuel with
  | zero => intro n acc h; omega
  | succ f ih =>
    intro n acc h
    rw [decDigits]
    simp only [Nat.toDigitsCore]
    by_cases h10 : n / 10 = 0
    · simp [h10]
    · simp only [h10, if_false, dif_neg h10]
      rw [ih (n / 10) _ (by omega)]
      simp

theorem repr_eq_decDigits (n : Nat) : Nat.repr n = ⟨decDigits n⟩ := by
  show (Nat.toDigits 10 n).asString = _
  rw [Nat.toDigits, toDigitsCore_eq_decDigits (n + 1) n [] (by omega)]
  simp [List.asString]

theorem digVal_digitChar (d : Nat) (h : d < 10) :
    digVal (Nat.digitChar d) = d := by
  interval_cases d <;> decide

theorem fromDigits_append_singleton (l : List Char) (c : Char) :
    fromDigits (l ++ [c]) = 10 * fromDigits l + digVal c := by
  simp [fromDigits, List.foldl_append]

theorem fromDigits_decDigits (n : Nat) : fromDigits (decDigits n) = n := by
  induction n using decDigits.induct with
  | case1 n h =>
    rw [decDigits, dif_pos h]
    have h2 : n % 10 = n := by omega
    have h3 := digVal_digitChar n (by omega)
    simp only [fromDigits, List.foldl_cons, List.foldl_nil, h2, h3]
    omega
  | case2 n h ih =>
    rw [decDigits, dif_neg h, fromDigits_append_singleton, ih,
      digVal_digitChar (n % 10) (by omega)]
    omega

theorem decDigits_injective (a b : Nat) (h : decDigits a = decDigits b) :
    a = b := by
  have := congrArg fromDigits h
  rwa [fromDigits_decDigits, fromDigits_decDigits] at this

theorem decDigits_head_ne_zero (n : Nat) (hn : 1 ≤ n) :
    ∃ c cs, decDigits n = c :: cs ∧ c ≠ '0' := by
  induction n using decDigits.induct with
  | case1 n h =>
    rw [decDigits, dif_pos h]
    refine ⟨Nat.digitChar (n % 10), [], rfl, ?_⟩
    have hlt : n < 10 := by omega
    interval_cases n <;> simp_all <;> decide
  | case2 n h ih =>
    rw [decDigits, dif_neg h]
    obtain ⟨c, cs, hcs, hc⟩ := ih (by omega)
    exact ⟨c, cs ++ [Nat.digitChar (n % 10)], by rw [hcs]; simp, hc⟩

theorem dropWhile_zeros (k : Nat) (c : Char) (cs : List Char) (hc : c ≠ '0') :
    List.dropWhile (fun x => x == '0') (List.replicate k '0' ++ c :: cs) =
      c :: cs := by
  induction k with
  | zero =>
    have hfalse : (c == '0') = false := beq_eq_false_iff_ne.mpr hc
    simp [List.dropWhile_cons, hfalse]
  | succ k ih =>
    rw [List.replicate_succ, List.cons_append, List.dropWhile_cons]
    simpa using ih

theorem padStart0_repr_injective (a b : Nat) (ha : 1 ≤ a) (hb : 1 ≤ b)
    (h : padStart0 3 (Nat.repr a) = padStart0 3 (Nat.repr b)) : a = b := by
  obtain ⟨c, cs, hcs, hc⟩ := decDigits_head_ne_zero a ha
  obtain ⟨d, ds, hds, hd⟩ := decDigits_head_ne_zero b hb
  rw [repr_eq_decDigits, repr_eq_decDigits] at h
  have hdata := congrArg String.data h
  simp only [padStart0] at hdata
  rw [hcs, hds] at hdata
  have h2 := congrArg (List.dropWhile (fun x => x == '0')) hdata
  rw [dropWhile_zeros _ c cs hc, dropWhile_zeros _ d ds hd] at h2
  apply decDigits_injective
  rw [hcs, hds, h2]


/-! ### List positional helpers -/

theorem findIdx?_first {α : Type} (p : α → Bool) (pre : List α) :
    ∀ (x : α) (suf : List α) (i : Nat),
      (∀ r ∈ pre, p r = false) → p x = true →
      List.findIdx? p (pre ++ x :: suf) i = some (i + pre.length) := by
  induction pre with
  | nil => intro x suf i _ hx; simp [List.findIdx?_cons, hx]
  | cons a t ih =>
    intro x suf i hpre hx
    rw [List.cons_append, List.findIdx?_cons, hpre a (by simp)]
    simp only [Bool.false_eq_true, if_false]
    rw [ih x suf (i + 1) (fun r hr => hpre r (by simp [hr])) hx]
    congr 1
    simp only [List.length_cons]
    omega

theorem getD_append_mid {α : Type} (pre : List α) (x : α) (suf : List α)
    (d : α) : (pre ++ x :: suf).getD pre.length d = x := by
  rw [List.getD_eq_getElem?_getD, List.getElem?_append_right (le_refl _)]
  simp

theorem set_append_mid {α : Type} (pre : List α) (x y : α) (suf : List α) :
    (pre ++ x :: suf).set pre.length y = pre ++ y :: suf := by
  rw [List.set_append_right _ _ (le_refl _)]
  simp

theorem deleteRow_append_mid (pre : List (List Cell)) (x : List Cell)
    (suf : List (List Cell)) :
    deleteRow (pre ++ x :: suf) pre.length = pre ++ suf := by
  unfold deleteRow
  have h1 : (pre ++ x :: suf).take pre.length = pre :=
    List.take_left pre (x :: suf)
  have h2 : (pre ++ x :: suf).drop (pre.length + 1) = suf := by
    have h0 : pre ++ x :: suf = (pre ++ [x]) ++ suf := by simp
    rw [h0]
    have h3 := List.drop_left (pre ++ [x]) suf
    simp only [List.length_append, List.length_cons, List.length_nil] at h3
    exact h3
  rw [h1, h2]

theorem getCell_setCell_zero (row : List Cell) (v : Cell) :
    getCell (setCell row 1 v) 0 = getCell row 0 := by
  rcases row with _ | ⟨a, _ | ⟨b, t⟩⟩ <;> simp [setCell, getCell, List.replicate]

theorem getCell_setCell_one (row : List Cell) (v : Cell) :
    getCell (setCell row 1 v) 1 = v := by
  rcases row with _ | ⟨a, _ | ⟨b, t⟩⟩ <;> simp [setCell, getCell, List.replicate]

theorem jsTrunc_intCast (i : Int) : jsTrunc (i : ℚ) = i := by
  unfold jsTrunc
  by_cases h : (0 : ℚ) ≤ (i : ℚ)
  · rw [if_pos h, Int.floor_intCast]
  · rw [if_neg h]
    have : (-(i : ℚ)) = ((-i : Int) : ℚ) := by push_cast; ring
    rw [this, Int.floor_intCast]
    omega

theorem mem_enum_decomp {α : Type} [Inhabited α] (l : List α) (x : Nat × α)
    (h : x ∈ l.enum) :
    x.1 < l.length ∧ l.getD x.1 default = x.2 := by
  obtain ⟨i, a⟩ := x
  rw [List.mk_mem_enum_iff_getElem?] at h
  have hlt : i < l.length := by
    by_contra hge
    rw [List.getElem?_eq_none (by omega)] at h
    exact Option.noConfusion h
  refine ⟨hlt, ?_⟩
  rw [List.getD_eq_getElem?_getD, h]
  rfl


/-! ### Orchestrator step and run lemmas -/

theorem getNextInvoiceNumber_ok (hdr crow : List Cell)
    (cpre csuf : List (List Cell)) (companyId : String) (c : Int)
    (hm : cellEqStr (getCell crow 0) companyId = true)
    (hpre : ∀ r ∈ cpre, cellEqStr (getCell r 0) companyId = false)
    (hc : jsParseInt (getCell crow 1) = some c) :
    getNextInvoiceNumber true (hdr :: (cpre ++ crow :: csuf)) companyId =
      .ok (cpre.length + 2, c) := by
  unfold getNextInvoiceNumber
  simp only [Bool.not_true, Bool.false_eq_true, if_false, List.drop_succ_cons,
    List.drop_zero]
  rw [findIdx?_first _ cpre crow csuf 0 hpre hm]
  simp only [Nat.zero_add, getD_append_mid, hc]

theorem writeCounterCell_mid (hdr crow : List Cell)
    (cpre csuf : List (List Cell)) (n : Int) :
    writeCounterCell (hdr :: (cpre ++ crow :: csuf)) (cpre.length + 2) n =
      hdr :: (cpre ++ (setCell crow 1 (.num (n : ℚ))) :: csuf) := by
  unfold writeCounterCell
  have hidx : cpre.length + 2 - 1 = cpre.length + 1 := by omega
  rw [hidx, List.getD_cons_succ, List.set_cons_succ, getD_append_mid,
    set_append_mid]

theorem createCall_step (td : TransactionData) (inv : InvoiceData)
    (company : Company) (tid : String) (st : OrchState)
    (hdr crow : List Cell) (cpre csuf : List (List Cell)) (c : Int)
    (hst : st.counterTab = hdr :: (cpre ++ crow :: csuf))
    (hm : cellEqStr (getCell crow 0) company.id = true)
    (hpre : ∀ r ∈ cpre, cellEqStr (getCell r 0) company.id = false)
    (hc : jsParseInt (getCell crow 1) = some c) :
    createTransactionAndInvoice allOk st td inv company tid =
      ⟨true, none, some (mkInvoiceId company c),
       ⟨st.transactionsTab ++
          [encodeTransactionRow (withInvoiceId td (mkInvoiceId company c))],
        st.invoicesTab ++
          [encodeInvoiceRow (mkInvoiceId company c) tid inv td.amount],
        hdr :: (cpre ++ (setCell crow 1 (.num ((c + 1 : Int) : ℚ))) :: csuf)⟩⟩ := by
  unfold createTransactionAndInvoice
  simp only [allOk]
  rw [hst, getNextInvoiceNumber_ok hdr crow cpre csuf company.id c hm hpre hc]
  simp only [Bool.not_true, Bool.false_eq_true, if_false, hst,
    writeCounterCell_mid, mkInvoiceId, withInvoiceId]


theorem runInvoiceCalls_spec (td : TransactionData) (inv : InvoiceData)
    (company : Company) (tid : String) :
    ∀ (N : Nat) (st : OrchState) (hdr crow : List Cell)
      (cpre csuf : List (List Cell)) (c : Int),
      st.counterTab = hdr :: (cpre ++ crow :: csuf) →
      cellEqStr (getCell crow 0) company.id = true →
      (∀ r ∈ cpre, cellEqStr (getCell r 0) company.id = false) →
      jsParseInt (getCell crow 1) = some c →
      (runInvoiceCalls td inv company tid N st).1 =
          (List.range N).map (fun k : Nat => some (mkInvoiceId company (c + (k : Int))))
        ∧ ∃ crow2,
            (runInvoiceCalls td inv company tid N st).2.counterTab =
              hdr :: (cpre ++ crow2 :: csuf) ∧
            cellEqStr (getCell crow2 0) company.id = true ∧
            jsParseInt (getCell crow2 1) = some (c + N) := by
  intro N
  induction N with
  | zero =>
    intro st hdr crow cpre csuf c hst hm hpre hc
    refine ⟨by simp [runInvoiceCalls], crow, by simpa using hst, hm, by simpa using hc⟩
  | succ n ih =>
    intro st hdr crow cpre csuf c hst hm hpre hc
    rw [runInvoiceCalls,
      createCall_step td inv company tid st hdr crow cpre csuf c hst hm hpre hc]
    have hm1 : cellEqStr
        (getCell (setCell crow 1 (.num ((c + 1 : Int) : ℚ))) 0) company.id = true := by
      rw [getCell_setCell_zero]; exact hm
    have hc1 : jsParseInt
        (getCell (setCell crow 1 (.num ((c + 1 : Int) : ℚ))) 1) = some (c + 1) := by
      rw [getCell_setCell_one]
      show some (jsTrunc ((c + 1 : Int) : ℚ)) = some (c + 1)
      rw [jsTrunc_intCast]
    obtain ⟨hids, crow2, hst2, hm2, hc2⟩ :=
      ih (OrchState.mk
          (st.transactionsTab ++
            [encodeTransactionRow (withInvoiceId td (mkInvoiceId company c))])
          (st.invoicesTab ++
            [encodeInvoiceRow (mkInvoiceId company c) tid inv td.amount])
          (hdr :: (cpre ++ setCell crow 1 (Cell.num ((c + 1 : Int) : ℚ)) :: csuf)))
        hdr (setCell crow 1 (.num ((c + 1 : Int) : ℚ))) cpre csuf (c + 1)
        rfl hm1 hpre hc1
    constructor
    · simp only [hids, List.range_succ_eq_map, List.map_cons, List.map_map]
      congr 1
      · simp
      · apply List.map_congr_left
        intro k _
        simp only [Function.comp_apply]
        congr 2
        push_cast
        ring
    · refine ⟨crow2, by simpa using hst2, hm2, ?_⟩
      rw [hc2]
      congr 1
      push_cast
      ring


/-! ### Claim C1 -/

theorem jsNumRepr_nonneg (i : Int) (h : 0 ≤ i) :
    jsNumRepr i = Nat.repr i.toNat := by
  unfold jsNumRepr
  rw [if_neg (by omega)]

theorem string_append_left_cancel (s a b : String) (h : s ++ a = s ++ b) :
    a = b := by
  apply String.ext
  have h2 := congrArg String.data h
  simp only [String.data_append] at h2
  exact List.append_cancel_left h2

theorem mkInvoiceId_injective_pos (company : Company) (a b : Int)
    (ha : 1 ≤ a) (hb : 1 ≤ b)
    (h : mkInvoiceId company a = mkInvoiceId company b) : a = b := by
  unfold mkInvoiceId at h
  have h2 := string_append_left_cancel _ _ _ h
  rw [jsNumRepr_nonneg a (by omega), jsNumRepr_nonneg b (by omega)] at h2
  have h3 := padStart0_repr_injective a.toNat b.toNat (by omega) (by omega) h2
  omega

/-- C1: for `N` sequential, non-concurrent, fully successful
`createTransactionAndInvoice` calls against a single company whose counter
row holds `nextNumber = c ≥ 1`, the k-th call generates the invoice id for
number `c + k` (so the embedded invoice-number sequence is strictly
increasing), the generated id list has no repeats, and the stored
`InvoiceCounter.nextNumber` after `k` calls is exactly `c + k`, hence
monotonic non-decreasing across the calls. -/
theorem claim_C1_counter_monotonic
    (td : TransactionData) (inv : InvoiceData) (company : Company)
    (tid : String) (st : OrchState) (hdr crow : List Cell)
    (cpre csuf : List (List Cell)) (c : Int) (N : Nat)
    (hst : st.counterTab = hdr :: (cpre ++ crow :: csuf))
    (hm : cellEqStr (getCell crow 0) company.id = true)
    (hpre : ∀ r ∈ cpre, cellEqStr (getCell r 0) company.id = false)
    (hc : jsParseInt (getCell crow 1) = some c)
    (hpos : 1 ≤ c) :
    (runInvoiceCalls td inv company tid N st).1 =
        (List.range N).map (fun k : Nat => some (mkInvoiceId company (c + (k : Int))))
      ∧ (∀ i j : Nat, i < j → j < N → c + (i : Int) < c + (j : Int))
      ∧ ((runInvoiceCalls td inv company tid N st).1).Nodup
      ∧ (∀ k : Nat, k ≤ N →
          counterValueAt ((runInvoiceCalls td inv company tid k st).2.counterTab)
            cpre.length = some (c + (k : Int)))
      ∧ (∀ j k : Nat, j ≤ k → k ≤ N → ∀ vj vk : Int,
          counterValueAt ((runInvoiceCalls td inv company tid j st).2.counterTab)
            cpre.length = some vj →
          counterValueAt ((runInvoiceCalls td inv company tid k st).2.counterTab)
            cpre.length = some vk →
          vj ≤ vk) := by
  have hcva : ∀ k : Nat,
      counterValueAt ((runInvoiceCalls td inv company tid k st).2.counterTab)
        cpre.length = some (c + (k : Int)) := by
    intro k
    obtain ⟨_, crow2, hst2, _, hc2⟩ :=
      runInvoiceCalls_spec td inv company tid k st hdr crow cpre csuf c
        hst hm hpre hc
    unfold counterValueAt
    rw [hst2]
    simp only [List.drop_succ_cons, List.drop_zero, getD_append_mid]
    exact hc2
  obtain ⟨hids, _⟩ :=
    runInvoiceCalls_spec td inv company tid N st hdr crow cpre csuf c
      hst hm hpre hc
  refine ⟨hids, by intro i j hij hjN; omega, ?_, fun k _ => hcva k, ?_⟩
  · rw [hids]
    apply List.Nodup.map
    · intro k1 k2 hk
      have h2 := Option.some_injective _ hk
      have h3 := mkInvoiceId_injective_pos company (c + (k1 : Int))
        (c + (k2 : Int)) (by omega) (by omega) h2
      omega
    · exact List.nodup_range N
  · intro j k hjk _ vj vk hvj hvk
    rw [hcva j] at hvj
    rw [hcva k] at hvk
    have h1 := Option.some_injective _ hvj
    have h2 := Option.some_injective _ hvk
    omega

/-- Witness for C1 at a concrete company, counter state and `N = 2`. -/
theorem claim_C1_counter_monotonic_witness :
    (OrchState.mk [] [] [[Cell.str "companyId", Cell.str "nextNumber"],
        [Cell.str "c1", Cell.str "1"]]).counterTab
        = [Cell.str "companyId", Cell.str "nextNumber"] ::
            ([] ++ [Cell.str "c1", Cell.str "1"] :: [])
      ∧ cellEqStr (getCell [Cell.str "c1", Cell.str "1"] 0) "c1" = true
      ∧ (∀ r ∈ ([] : List (List Cell)), cellEqStr (getCell r 0) "c1" = false)
      ∧ jsParseInt (getCell [Cell.str "c1", Cell.str "1"] 1) = some 1
      ∧ (1 : Int) ≤ 1
      ∧ ((runInvoiceCalls
            ⟨⟨1, 2, 2024⟩, "Acme", "Sales", "d", 50, "Income", none, none⟩
            ⟨"c1", "Cust", "Addr", ⟨1, 2, 2024⟩, ⟨1, 9, 2024⟩⟩
            ⟨2, "c1", "Acme", "INV-", ""⟩ "txn-1" 2
            (OrchState.mk [] [] [[Cell.str "companyId", Cell.str "nextNumber"],
              [Cell.str "c1", Cell.str "1"]])).1 =
          (List.range 2).map (fun k : Nat =>
            some (mkInvoiceId ⟨2, "c1", "Acme", "INV-", ""⟩ (1 + (k : Int))))) := by
  refine ⟨rfl, by decide, by simp, by decide, by decide, ?_⟩
  exact (claim_C1_counter_monotonic
    ⟨⟨1, 2, 2024⟩, "Acme", "Sales", "d", 50, "Income", none, none⟩
    ⟨"c1", "Cust", "Addr", ⟨1, 2, 2024⟩, ⟨1, 9, 2024⟩⟩
    ⟨2, "c1", "Acme", "INV-", ""⟩ "txn-1"
    (OrchState.mk [] [] [[Cell.str "companyId", Cell.str "nextNumber"],
      [Cell.str "c1", Cell.str "1"]])
    [Cell.str "companyId", Cell.str "nextNumber"]
    [Cell.str "c1", Cell.str "1"] [] [] 1 2
    rfl (by decide) (by simp) (by decide) (by decide)).1


/-! ### Claims C2, C3, C4 -/

/-- C2: the claim states a present tab never yields null.  The source
returns `sheet?.properties?.sheetId || null`, and the JS `||` treats the
numeric sheet id `0` — the id of the first tab of every spreadsheet — as
falsy, so a present tab with id 0 yields null: first conjunct.  The
remaining conjuncts prove the directions that do hold: a failed metadata
read yields null, an absent tab yields null, and a present tab with a
nonzero id yields its id. -/
theorem claim_C2_sheet_resolver :
    getSheetIdByTitle (some [⟨0, "Transactions"⟩]) "Transactions" = none
  ∧ (∀ title : String, getSheetIdByTitle none title = none)
  ∧ (∀ (sheets : List SheetProps) (title : String),
      (∀ s ∈ sheets, s.title ≠ title) →
      getSheetIdByTitle (some sheets) title = none)
  ∧ (∀ (sheets : List SheetProps) (title : String) (s : SheetProps),
      sheets.find? (fun s => s.title = title) = some s → s.sheetId ≠ 0 →
      getSheetIdByTitle (some sheets) title = some s.sheetId) := by
  refine ⟨by decide, fun _ => rfl, ?_, ?_⟩
  · intro sheets title habs
    have hfind : sheets.find? (fun s => s.title = title) = none := by
      rw [List.find?_eq_none]
      intro s hs
      simpa using habs s hs
    simp only [getSheetIdByTitle, hfind]
  · intro sheets title s hfind hnz
    simp only [getSheetIdByTitle, hfind, if_neg hnz]

/-- Witness for C2's conditional conjuncts at concrete metadata. -/
theorem claim_C2_sheet_resolver_witness :
    (∀ s ∈ [(⟨7, "Companies"⟩ : SheetProps)], s.title ≠ "Missing")
  ∧ getSheetIdByTitle (some [⟨7, "Companies"⟩]) "Missing" = none
  ∧ [(⟨7, "Companies"⟩ : SheetProps)].find?
      (fun s => s.title = "Companies") = some ⟨7, "Companies"⟩
  ∧ getSheetIdByTitle (some [⟨7, "Companies"⟩]) "Companies" = some 7 :=
  ⟨by decide,
   claim_C2_sheet_resolver.2.2.1 [⟨7, "Companies"⟩] "Missing" (by decide),
   by decide,
   claim_C2_sheet_resolver.2.2.2 [⟨7, "Companies"⟩] "Companies"
     ⟨7, "Companies"⟩ (by decide) (by decide)⟩

/-- C3 counterexample: a raw grid row whose income and expense cells both
hold positive numbers decodes — and is returned by `getTransactions` —
with both `income > 0` and `expense > 0`; the decoder never enforces the
claimed mutual exclusivity on arbitrary sheet content. -/
theorem claim_C3_counterexample :
    ∃ t ∈ getTransactions [[Cell.str "01/01/2024", Cell.str "A",
      Cell.str "C", Cell.str "d", Cell.num 5, Cell.num 7]],
      0 < t.income ∧ 0 < t.expense := by
  refine ⟨⟨2, "01/01/2024", "A", "C", "d", 5, 7, "", ""⟩, by decide, by decide⟩

/-- C3 amended: mutual exclusivity holds for every row produced by the
write path: a row encoded by `addTransaction` decodes with `income = 0`
or `expense = 0` (exactly one cell of the pair is non-empty by
construction, the other decodes from `""` to `0`). -/
theorem claim_C3_mutual_exclusivity_encoded (td : TransactionData)
    (index : Nat) :
    (decodeTransactionRow index (encodeTransactionRow td)).income = 0 ∨
    (decodeTransactionRow index (encodeTransactionRow td)).expense = 0 := by
  by_cases hI : td.type = "Income"
  · right
    have hE : ¬(td.type = "Expense") := by rw [hI]; decide
    simp [decodeTransactionRow, encodeTransactionRow, getCell, hI, hE,
      numOrZero, jsParseFloat, jsParseFloatStr]
  · left
    simp [decodeTransactionRow, encodeTransactionRow, getCell, hI,
      numOrZero, jsParseFloat, jsParseFloatStr]

/-- C4: with `invoicePrefix = "INV-"` and a counter row holding
`nextNumber = 7`, a successful `createTransactionAndInvoice` reports
success, generates `invoiceId = "INV-007"` (prefix ++ zero-pad-3), and
writes `8` back to the company's counter cell. -/
theorem claim_C4_invoice_format :
    (createTransactionAndInvoice allOk
        (OrchState.mk [] [] [[Cell.str "companyId", Cell.str "nextNumber"],
          [Cell.str "c1", Cell.str "7"]])
        ⟨⟨1, 2, 2024⟩, "Acme", "Sales", "d", 50, "Income", none, none⟩
        ⟨"c1", "Cust", "Addr", ⟨1, 2, 2024⟩, ⟨1, 9, 2024⟩⟩
        ⟨2, "c1", "Acme", "INV-", ""⟩ "txn-1").success = true
  ∧ (createTransactionAndInvoice allOk
        (OrchState.mk [] [] [[Cell.str "companyId", Cell.str "nextNumber"],
          [Cell.str "c1", Cell.str "7"]])
        ⟨⟨1, 2, 2024⟩, "Acme", "Sales", "d", 50, "Income", none, none⟩
        ⟨"c1", "Cust", "Addr", ⟨1, 2, 2024⟩, ⟨1, 9, 2024⟩⟩
        ⟨2, "c1", "Acme", "INV-", ""⟩ "txn-1").invoiceId = some "INV-007"
  ∧ (createTransactionAndInvoice allOk
        (OrchState.mk [] [] [[Cell.str "companyId", Cell.str "nextNumber"],
          [Cell.str "c1", Cell.str "7"]])
        ⟨⟨1, 2, 2024⟩, "Acme", "Sales", "d", 50, "Income", none, none⟩
        ⟨"c1", "Cust", "Addr", ⟨1, 2, 2024⟩, ⟨1, 9, 2024⟩⟩
        ⟨2, "c1", "Acme", "INV-", ""⟩ "txn-1").state.counterTab =
      [[Cell.str "companyId", Cell.str "nextNumber"],
       [Cell.str "c1", Cell.num 8]] := by
  refine ⟨by decide, by decide, by decide⟩


/-! ### Claim C5 -/

/-- C5: when the invoice append fails after a successful transaction
append (and regardless of the unreached counter write outcome `cw`), the
operation returns failure with the escalated message, which differs from
the clean-abort message of a failed transaction append; the appended
transaction row remains in the table (no compensating delete), the
invoices tab is untouched, and the counter is left unchanged. -/
theorem claim_C5_partial_invoice_failure
    (cw : Bool) (st : OrchState) (td : TransactionData) (inv : InvoiceData)
    (company : Company) (tid : String) (pos : Nat) (n : Int)
    (hread : getNextInvoiceNumber true st.counterTab company.id = .ok (pos, n)) :
    (createTransactionAndInvoice ⟨true, true, false, cw⟩ st td inv company
        tid).success = false
  ∧ (createTransactionAndInvoice ⟨true, true, false, cw⟩ st td inv company
        tid).errorMsg =
      some "Transaction created, but failed to create invoice record."
  ∧ (createTransactionAndInvoice ⟨true, true, false, cw⟩ st td inv company
        tid).errorMsg ≠ some "Failed to create the transaction."
  ∧ (createTransactionAndInvoice ⟨true, true, false, cw⟩ st td inv company
        tid).state.transactionsTab =
      st.transactionsTab ++
        [encodeTransactionRow (withInvoiceId td (mkInvoiceId company n))]
  ∧ (createTransactionAndInvoice ⟨true, true, false, cw⟩ st td inv company
        tid).state.invoicesTab = st.invoicesTab
  ∧ (createTransactionAndInvoice ⟨true, true, false, cw⟩ st td inv company
        tid).state.counterTab = st.counterTab := by
  simp only [createTransactionAndInvoice, hread, Bool.not_true,
    Bool.not_false, Bool.false_eq_true, if_false, if_true, mkInvoiceId,
    withInvoiceId]
  refine ⟨?_, ?_, ?_, ?_, ?_, ?_⟩ <;> trivial

/-- Witness for C5 at a concrete state with counter row `("c1", 7)`. -/
theorem claim_C5_partial_invoice_failure_witness :
    getNextInvoiceNumber true
        [[Cell.str "companyId", Cell.str "nextNumber"],
         [Cell.str "c1", Cell.str "7"]] "c1" = .ok (2, 7)
  ∧ (createTransactionAndInvoice ⟨true, true, false, true⟩
        (OrchState.mk [] [] [[Cell.str "companyId", Cell.str "nextNumber"],
          [Cell.str "c1", Cell.str "7"]])
        ⟨⟨1, 2, 2024⟩, "Acme", "Sales", "d", 50, "Income", none, none⟩
        ⟨"c1", "Cust", "Addr", ⟨1, 2, 2024⟩, ⟨1, 9, 2024⟩⟩
        ⟨2, "c1", "Acme", "INV-", ""⟩ "txn-1").success = false :=
  ⟨rfl,
   (claim_C5_partial_invoice_failure true
      (OrchState.mk [] [] [[Cell.str "companyId", Cell.str "nextNumber"],
        [Cell.str "c1", Cell.str "7"]])
      ⟨⟨1, 2, 2024⟩, "Acme", "Sales", "d", 50, "Income", none, none⟩
      ⟨"c1", "Cust", "Addr", ⟨1, 2, 2024⟩, ⟨1, 9, 2024⟩⟩
      ⟨2, "c1", "Acme", "INV-", ""⟩ "txn-1" 2 7 rfl).1⟩


/-! ### Claim C6 -/

theorem findIdx?_none {α : Type} (p : α → Bool) :
    ∀ (l : List α) (i : Nat), (∀ x ∈ l, p x = false) →
      List.findIdx? p l i = none := by
  intro l
  induction l with
  | nil => intro i _; rfl
  | cons a t ih =>
    intro i h
    rw [List.findIdx?_cons, h a (by simp)]
    simp only [Bool.false_eq_true, if_false]
    exact ih (i + 1) (fun x hx => h x (by simp [hx]))

theorem getCompanies_mem_id (grid : List (List Cell)) (comp : Company)
    (h : comp ∈ getCompanies grid) :
    ∃ row ∈ grid, comp.id = cellText (getCell row 0) := by
  unfold getCompanies at h
  obtain ⟨hmem, -⟩ := List.mem_filter.mp h
  obtain ⟨p, hp, hdec⟩ := List.mem_map.mp hmem
  obtain ⟨hlt, hget⟩ := mem_enum_decomp grid p hp
  refine ⟨p.2, ?_, ?_⟩
  · rw [← hget, List.getD_eq_getElem?_getD, List.getElem?_eq_getElem hlt]
    exact List.getElem_mem hlt
  · rw [← hdec]
    rfl

/-- C6: with both tabs resolved and a matching counter row present,
`deleteCompany` returns a single batched request list containing exactly
the Companies row delete and the counter row delete (so, given the
backing service applies a batch atomically, both rows are removed or
neither is); applying that batch removes exactly the company row and the
matching counter row, after which the company id is absent from
`getCompanies` and the counter scan finds no row; and when no matching
counter row exists the operation proceeds with only the Companies
delete. -/
theorem claim_C6_delete_company
    (meta : Option (List SheetProps)) (st : CompanyTabs)
    (companyId : String) (cid kid : Nat)
    (chdr crow krow : List Cell) (pre suf kpre ksuf : List (List Cell))
    (khdr : List Cell)
    (hcid : getSheetIdByTitle meta "Companies" = some cid)
    (hkid : getSheetIdByTitle meta "InvoiceCounter" = some kid)
    (hne : cid ≠ kid)
    (hcomp : st.companiesTab = chdr :: (pre ++ crow :: suf))
    (hpre : ∀ r ∈ pre, cellText (getCell r 0) ≠ companyId)
    (hsuf : ∀ r ∈ suf, cellText (getCell r 0) ≠ companyId)
    (hctr : st.counterTab = khdr :: (kpre ++ krow :: ksuf))
    (hkm : cellEqStr (getCell krow 0) companyId = true)
    (hkpre : ∀ r ∈ kpre, cellEqStr (getCell r 0) companyId = false)
    (hksuf : ∀ r ∈ ksuf, cellEqStr (getCell r 0) companyId = false) :
    deleteCompany meta st companyId (pre.length + 2) =
        some [⟨cid, pre.length + 1, pre.length + 2⟩,
              ⟨kid, kpre.length + 1, kpre.length + 2⟩]
  ∧ applyBatch cid kid st
        [⟨cid, pre.length + 1, pre.length + 2⟩,
         ⟨kid, kpre.length + 1, kpre.length + 2⟩] =
      ⟨chdr :: (pre ++ suf), khdr :: (kpre ++ ksuf)⟩
  ∧ (∀ comp ∈ getCompanies ((chdr :: (pre ++ suf)).drop 1),
      comp.id ≠ companyId)
  ∧ ((khdr :: (kpre ++ ksuf)).drop 1).findIdx?
      (fun row => cellEqStr (getCell row 0) companyId) = none
  ∧ (∀ (st2 : CompanyTabs) (rowIdx : Nat),
      (st2.counterTab.drop 1).findIdx?
        (fun row => cellEqStr (getCell row 0) companyId) = none →
      deleteCompany meta st2 companyId rowIdx =
        some [⟨cid, rowIdx - 1, rowIdx⟩]) := by
  refine ⟨?_, ?_, ?_, ?_, ?_⟩
  · simp only [deleteCompany, hcid, hkid, hctr, List.drop_succ_cons,
      List.drop_zero]
    rw [findIdx?_first _ kpre krow ksuf 0 hkpre hkm]
    simp only [Nat.zero_add]
    rfl
  · have hdelc : deleteRow (chdr :: (pre ++ crow :: suf)) (pre.length + 1) =
        chdr :: (pre ++ suf) := by
      have h := deleteRow_append_mid (chdr :: pre) crow suf
      simpa using h
    have hdelk : deleteRow (khdr :: (kpre ++ krow :: ksuf)) (kpre.length + 1) =
        khdr :: (kpre ++ ksuf) := by
      have h := deleteRow_append_mid (khdr :: kpre) krow ksuf
      simpa using h
    have hkc : ¬(kid = cid) := fun h => hne h.symm
    simp [applyBatch, applyReq, hcomp, hctr, hkc, hdelc, hdelk]
  · intro comp hmem
    obtain ⟨row, hrow, hid⟩ := getCompanies_mem_id _ comp
      (by simpa using hmem)
    rw [hid]
    rcases List.mem_append.mp hrow with h | h
    · exact hpre row h
    · exact hsuf row h
  · simp only [List.drop_succ_cons, List.drop_zero]
    apply findIdx?_none
    intro x hx
    rcases List.mem_append.mp hx with h | h
    · exact hkpre x h
    · exact hksuf x h
  · intro st2 rowIdx hnone
    simp only [deleteCompany, hcid, hkid, hnone]


/-- Witness for C6 at a concrete metadata document and pair of tabs. -/
theorem claim_C6_delete_company_witness :
    getSheetIdByTitle (some [⟨1, "Companies"⟩, ⟨2, "InvoiceCounter"⟩])
        "Companies" = some 1
  ∧ getSheetIdByTitle (some [⟨1, "Companies"⟩, ⟨2, "InvoiceCounter"⟩])
        "InvoiceCounter" = some 2
  ∧ (1 : Nat) ≠ 2
  ∧ cellEqStr (getCell [Cell.str "c1", Cell.str "1"] 0) "c1" = true
  ∧ deleteCompany (some [⟨1, "Companies"⟩, ⟨2, "InvoiceCounter"⟩])
      (CompanyTabs.mk
        [[Cell.str "id"], [Cell.str "c1", Cell.str "Acme"]]
        [[Cell.str "companyId"], [Cell.str "c1", Cell.str "1"]])
      "c1" 2 = some [⟨1, 1, 2⟩, ⟨2, 1, 2⟩] :=
  ⟨by decide, by decide, by decide, by decide,
   (claim_C6_delete_company
      (some [⟨1, "Companies"⟩, ⟨2, "InvoiceCounter"⟩])
      (CompanyTabs.mk
        [[Cell.str "id"], [Cell.str "c1", Cell.str "Acme"]]
        [[Cell.str "companyId"], [Cell.str "c1", Cell.str "1"]])
      "c1" 1 2 [Cell.str "id"] [Cell.str "c1", Cell.str "Acme"]
      [Cell.str "c1", Cell.str "1"] [] [] [] [] [Cell.str "companyId"]
      (by decide) (by decide) (by decide) rfl (by simp) (by simp) rfl
      (by decide) (by simp) (by simp)).1⟩


/-! ### Claim C7 -/

/-- C7: decode-after-encode round trip for every table kind, for every
record of the input type.  Each decoded record reproduces the encoded
record's fields: the transaction keeps its date text, company, category,
description, the amount in the income or expense field matching its type
(the other field decodes from `""` to `0`), receipt link and invoice id;
companies, categories, bills, invoices and counter rows reproduce their
fields likewise (with the statuses `"Pending"` / `"Draft"` the encoders
always write). -/
theorem claim_C7_round_trip :
    (∀ (td : TransactionData) (i : Nat),
      td.type = "Income" ∨ td.type = "Expense" →
      decodeTransactionRow i (encodeTransactionRow td) =
        ⟨i + 2, formatMMddyyyy td.date, td.company, td.category,
         td.description,
         (if td.type = "Income" then td.amount else 0),
         (if td.type = "Expense" then td.amount else 0),
         td.receiptLink.getD "", td.invoiceId.getD ""⟩)
  ∧ (∀ (companyId name invPrefix : String) (logo : Option String) (i : Nat),
      decodeCompanyRow i (encodeCompanyRow companyId name invPrefix logo) =
        ⟨i + 2, companyId, name, invPrefix, logo.getD ""⟩)
  ∧ (∀ (categoryId categoryName t : String),
      t = "Income" ∨ t = "Expense" →
      decodeCategoryRow (encodeCategoryRow categoryId categoryName t) =
        ⟨categoryId, categoryName, t⟩)
  ∧ (∀ (billId : String) (b : BillData) (i : Nat),
      decodeBillRow i (encodeBillRow billId b) =
        ⟨i + 2, billId, formatMMddyyyy b.dueDate, b.payee, b.amount,
         "Pending"⟩)
  ∧ (∀ (fid tid : String) (inv : InvoiceData) (amount : ℚ) (i : Nat),
      decodeInvoiceRow i (encodeInvoiceRow fid tid inv amount) =
        ⟨i + 2, fid, tid, inv.companyId, inv.customerName,
         inv.customerAddress, formatMMddyyyy inv.issueDate,
         formatMMddyyyy inv.dueDate, amount, "Draft"⟩)
  ∧ (∀ companyId : String,
      cellEqStr (getCell (encodeCounterRow companyId) 0) companyId = true
      ∧ jsParseInt (getCell (encodeCounterRow companyId) 1) = some 1) := by
  refine ⟨?_, ?_, ?_, ?_, ?_, ?_⟩
  · intro td i hty
    rcases hty with h | h <;>
      simp [decodeTransactionRow, encodeTransactionRow, getCell, cellText,
        numOrZero, jsParseFloat, jsParseFloatStr, h, Transaction.mk.injEq]
  · intro companyId name invPrefix logo i
    rfl
  · intro categoryId categoryName t ht
    rcases ht with h | h <;>
      simp [decodeCategoryRow, encodeCategoryRow, getCell, cellText,
        cellEqStr, h]
  · intro billId b i
    simp [decodeBillRow, encodeBillRow, getCell, cellText, cellEqStr,
      numOrZero, jsParseFloat]
  · intro fid tid inv amount i
    simp [decodeInvoiceRow, encodeInvoiceRow, getCell, cellText,
      numOrZero, jsParseFloat]
  · intro companyId
    exact ⟨by simp [encodeCounterRow, getCell, cellEqStr], rfl⟩

/-- Witness for C7's conditional conjuncts at concrete records. -/
theorem claim_C7_round_trip_witness :
    (("Income" : String) = "Income" ∨ ("Income" : String) = "Expense")
  ∧ decodeTransactionRow 0 (encodeTransactionRow
      ⟨⟨1, 2, 2024⟩, "Acme", "Sales", "d", 50, "Income", some "link",
        some "INV-007"⟩) =
      ⟨2, "01/02/2024", "Acme", "Sales", "d", 50, 0, "link", "INV-007"⟩
  ∧ (("Expense" : String) = "Income" ∨ ("Expense" : String) = "Expense")
  ∧ decodeCategoryRow (encodeCategoryRow "cat1" "Travel" "Expense") =
      ⟨"cat1", "Travel", "Expense"⟩ := by
  refine ⟨Or.inl rfl, ?_, Or.inr rfl, ?_⟩
  · have h := claim_C7_round_trip.1
      ⟨⟨1, 2, 2024⟩, "Acme", "Sales", "d", 50, "Income", some "link",
        some "INV-007"⟩ 0 (Or.inl rfl)
    rw [h]
    decide
  · exact claim_C7_round_trip.2.2.1 "cat1" "Travel" "Expense" (Or.inr rfl)


/-! ### Claims C8, C9, C10 -/

theorem pairwise_rowIndex_filtered (grid : List (List Cell)) :
    List.Pairwise (fun a b : Transaction => a.rowIndex < b.rowIndex)
      (transactionsFiltered grid) := by
  apply List.Pairwise.filter
  rw [List.pairwise_iff_getElem]
  intro i j hi hj hij
  simp only [List.getElem_map, List.getElem_enum]
  simp only [decodeTransactionRow]
  simpa using hij

/-- C8: for every input grid, `getTransactions` returns the decoded,
empty-row-filtered rows reversed (most recently appended first: the
originating row indices are strictly decreasing along the result) and
capped at 100 records. -/
theorem claim_C8_reverse_cap (grid : List (List Cell)) :
    getTransactions grid = (transactionsFiltered grid).reverse.take 100
  ∧ (getTransactions grid).length ≤ 100
  ∧ List.Pairwise (fun a b : Transaction => b.rowIndex < a.rowIndex)
      (getTransactions grid) := by
  refine ⟨rfl, ?_, ?_⟩
  · unfold getTransactions
    rw [List.length_take]
    omega
  · unfold getTransactions
    apply List.Pairwise.sublist (List.take_sublist _ _)
    rw [List.pairwise_reverse]
    exact pairwise_rowIndex_filtered grid

/-- C9: a transaction row whose expense (resp. income) cell holds
non-numeric text decodes that field to `0` instead of raising
(`"abc"` parses to NaN, which `|| 0` defaults), and decoding is total:
every kept row of a grid is listed in the filtered decode result,
whatever malformed cells the other rows contain. -/
theorem claim_C9_malformed_amount :
    (∀ (i : Nat) (row : List Cell), jsParseFloat (getCell row 5) = none →
        (decodeTransactionRow i row).expense = 0)
  ∧ (∀ (i : Nat) (row : List Cell), jsParseFloat (getCell row 4) = none →
        (decodeTransactionRow i row).income = 0)
  ∧ jsParseFloat (Cell.str "abc") = none
  ∧ (∀ (grid : List (List Cell)) (j : Nat), j < grid.length →
      keepTransaction (decodeTransactionRow j (grid.getD j [])) = true →
      decodeTransactionRow j (grid.getD j []) ∈ transactionsFiltered grid) := by
  refine ⟨?_, ?_, by decide, ?_⟩
  · intro i row h
    simp [decodeTransactionRow, numOrZero, h]
  · intro i row h
    simp [decodeTransactionRow, numOrZero, h]
  · intro grid j hj hkeep
    unfold transactionsFiltered
    apply List.mem_filter.mpr
    refine ⟨List.mem_map.mpr ⟨(j, grid.getD j []), ?_, rfl⟩, hkeep⟩
    rw [List.mk_mem_enum_iff_getElem?, List.getD_eq_getElem?_getD,
      List.getElem?_eq_getElem hj]
    rfl

/-- Witness for C9: a concrete row with expense cell `"abc"` decodes to
`expense = 0`, and a concrete grid containing that malformed row still
lists its well-formed neighbour. -/
theorem claim_C9_malformed_amount_witness :
    jsParseFloat (getCell [Cell.str "01/01/2024", Cell.str "A",
        Cell.str "C", Cell.str "d", Cell.str "", Cell.str "abc"] 5) = none
  ∧ (decodeTransactionRow 0 [Cell.str "01/01/2024", Cell.str "A",
        Cell.str "C", Cell.str "d", Cell.str "", Cell.str "abc"]).expense = 0
  ∧ (1 : Nat) < ([[Cell.str "01/01/2024", Cell.str "A", Cell.str "C",
        Cell.str "d", Cell.str "", Cell.str "abc"],
       [Cell.str "01/02/2024", Cell.str "B", Cell.str "C", Cell.str "d",
        Cell.num 5, Cell.str ""]] : List (List Cell)).length
  ∧ decodeTransactionRow 1
      ([[Cell.str "01/01/2024", Cell.str "A", Cell.str "C", Cell.str "d",
         Cell.str "", Cell.str "abc"],
        [Cell.str "01/02/2024", Cell.str "B", Cell.str "C", Cell.str "d",
         Cell.num 5, Cell.str ""]].getD 1 []) ∈
      transactionsFiltered
        [[Cell.str "01/01/2024", Cell.str "A", Cell.str "C", Cell.str "d",
          Cell.str "", Cell.str "abc"],
         [Cell.str "01/02/2024", Cell.str "B", Cell.str "C", Cell.str "d",
          Cell.num 5, Cell.str ""]] :=
  ⟨by decide,
   claim_C9_malformed_amount.1 0 [Cell.str "01/01/2024", Cell.str "A",
     Cell.str "C", Cell.str "d", Cell.str "", Cell.str "abc"] (by decide),
   by decide,
   claim_C9_malformed_amount.2.2.2
     [[Cell.str "01/01/2024", Cell.str "A", Cell.str "C", Cell.str "d",
       Cell.str "", Cell.str "abc"],
      [Cell.str "01/02/2024", Cell.str "B", Cell.str "C", Cell.str "d",
       Cell.num 5, Cell.str ""]] 1 (by decide) (by decide)⟩

/-- C10: list results carry `rowIndex = raw grid offset + 2` (header at
sheet row 1, first data row at sheet row 2), assigned before empty-row
filtering: every decoded row gets `index + 2`, and every record returned
by `getTransactions` / `getCompanies` originates at the grid offset
`rowIndex - 2`, even when empty rows are interleaved. -/
theorem claim_C10_row_positions (grid : List (List Cell)) :
    (∀ (i : Nat) (row : List Cell),
        (decodeTransactionRow i row).rowIndex = i + 2)
  ∧ (∀ (i : Nat) (row : List Cell),
        (decodeCompanyRow i row).rowIndex = i + 2)
  ∧ (∀ t ∈ getTransactions grid, ∃ i, i < grid.length ∧ t.rowIndex = i + 2
        ∧ t = decodeTransactionRow i (grid.getD i []))
  ∧ (∀ comp ∈ getCompanies grid, ∃ i, i < grid.length ∧
        comp.rowIndex = i + 2
        ∧ comp = decodeCompanyRow i (grid.getD i [])) := by
  refine ⟨fun i row => rfl, fun i row => rfl, ?_, ?_⟩
  · intro t ht
    have h1 : t ∈ transactionsFiltered grid := by
      have h2 := List.take_subset 100 (transactionsFiltered grid).reverse ht
      exact List.mem_reverse.mp h2
    obtain ⟨hmem, -⟩ := List.mem_filter.mp h1
    obtain ⟨p, hp, hdec⟩ := List.mem_map.mp hmem
    obtain ⟨hlt, hget⟩ := mem_enum_decomp grid p hp
    have hget2 : grid.getD p.1 ([] : List Cell) = p.2 := hget
    refine ⟨p.1, hlt, ?_, ?_⟩
    · rw [← hdec]; rfl
    · rw [← hdec, hget2]
  · intro comp hcomp
    obtain ⟨hmem, -⟩ := List.mem_filter.mp hcomp
    obtain ⟨p, hp, hdec⟩ := List.mem_map.mp hmem
    obtain ⟨hlt, hget⟩ := mem_enum_decomp grid p hp
    have hget2 : grid.getD p.1 ([] : List Cell) = p.2 := hget
    refine ⟨p.1, hlt, ?_, ?_⟩
    · rw [← hdec]; rfl
    · rw [← hdec, hget2]

/-- Witness for C10's membership conjuncts at a concrete grid with an
empty row interleaved. -/
theorem claim_C10_row_positions_witness :
    decodeTransactionRow 1
        ([[], [Cell.str "01/02/2024", Cell.str "B", Cell.str "C",
          Cell.str "d", Cell.num 5, Cell.str ""]].getD 1 []) ∈
      getTransactions [[], [Cell.str "01/02/2024", Cell.str "B",
        Cell.str "C", Cell.str "d", Cell.num 5, Cell.str ""]]
  ∧ ∃ i, i < ([[], [Cell.str "01/02/2024", Cell.str "B", Cell.str "C",
        Cell.str "d", Cell.num 5, Cell.str ""]] : List (List Cell)).length
      ∧ (decodeTransactionRow 1
          ([[], [Cell.str "01/02/2024", Cell.str "B", Cell.str "C",
            Cell.str "d", Cell.num 5, Cell.str ""]].getD 1 [])).rowIndex =
          i + 2
      ∧ decodeTransactionRow 1
          ([[], [Cell.str "01/02/2024", Cell.str "B", Cell.str "C",
            Cell.str "d", Cell.num 5, Cell.str ""]].getD 1 []) =
          decodeTransactionRow i
            ([[], [Cell.str "01/02/2024", Cell.str "B", Cell.str "C",
              Cell.str "d", Cell.num 5, Cell.str ""]].getD i []) :=
  ⟨by decide,
   (claim_C10_row_positions [[], [Cell.str "01/02/2024", Cell.str "B",
      Cell.str "C", Cell.str "d", Cell.num 5, Cell.str ""]]).2.2.1
     (decodeTransactionRow 1
       ([[], [Cell.str "01/02/2024", Cell.str "B", Cell.str "C",
         Cell.str "d", Cell.num 5, Cell.str ""]].getD 1 []))
     (by decide)⟩


end FinTrack
